import Mathlib

/-!
Shallow embedding of `src/app.py` (the "Temu Excel Inventory Splitter").

The program loads a workbook from bytes with openpyxl, selects a sheet, and
splits it: `split_excel_to_xlsx_bytes` partitions the data rows (rows after
the first `header_rows` rows) into chunks of at most `chunk_size` rows and
emits one fresh workbook per chunk, copying the header rows, the chunk's
data rows, and sheet-level layout.  `make_zip` packs the named outputs into
a deflate-compressed archive.

Embedding decisions:
  * Workbook parsing/serialization is outside the model: the embedding
    starts from the already-selected worksheet (a `Sheet`) and each output
    is a `Sheet` rather than serialized bytes.
  * Cell values are abstracted to `Option Int`, and the style payloads that
    `copy_cell` moves around (`_style`, `number_format`, `font`, `fill`,
    `border`, `alignment`, `protection`, `comment`) are abstract tokens;
    `copy` of an immutable token is the token itself.
  * openpyxl's cell grid is a total function `Nat → Nat → Cell` (1-indexed);
    reading an untouched position yields the default empty cell, and writing
    a cell updates the sheet's `max_row`/`max_column` exactly as creating a
    cell does in openpyxl.  A fresh worksheet reports `max_row = 1` and
    `max_column = 1`, as openpyxl does.
  * `merge_cells` is modelled as recording the merged range in the sheet's
    merged-range list; `row_dimensions` / `column_dimensions` are
    association lists keyed by the original row number / column letter.
  * `math.ceil(data_rows / chunk_size)` is modelled as exact natural-number
    ceiling division.
-/

namespace Slicer

/-- A spreadsheet cell: its value plus the style facets that `copy_cell` in
`app.py` manipulates (`_style`, `number_format`, `font`, `fill`, `border`,
`alignment`, `protection`, `comment`).  `hasStyle` models
`src_cell.has_style`. -/
structure Cell where
  value : Option Int
  style : Nat
  hasStyle : Bool
  numberFormat : Nat
  font : Nat
  fill : Nat
  border : Nat
  alignment : Nat
  protection : Nat
  comment : Option Nat
  deriving DecidableEq

/-- The cell an untouched grid position holds (openpyxl's fresh cell). -/
def emptyCell : Cell :=
  { value := none, style := 0, hasStyle := false, numberFormat := 0,
    font := 0, fill := 0, border := 0, alignment := 0, protection := 0,
    comment := none }

/-- Model of `copy_cell(src_cell, dst_cell)` from `app.py`: copy the value, copy
`_style` when the source has a style, then copy each facet and the
comment.  The mutated destination cell is returned. -/
def copy_cell (src dst : Cell) : Cell :=
  let d1 : Cell := { dst with value := src.value }
  let d2 : Cell := if src.hasStyle then { d1 with style := src.style } else d1
  { d2 with
    numberFormat := src.numberFormat,
    font := src.font,
    fill := src.fill,
    border := src.border,
    alignment := src.alignment,
    protection := src.protection,
    comment := src.comment }

/-- The facets a copied cell shares with its source: value, number format,
font, fill, border, alignment, protection and comment. -/
def facetsMatch (src out : Cell) : Prop :=
  out.value = src.value ∧ out.numberFormat = src.numberFormat ∧
  out.font = src.font ∧ out.fill = src.fill ∧ out.border = src.border ∧
  out.alignment = src.alignment ∧ out.protection = src.protection ∧
  out.comment = src.comment

instance (src out : Cell) : Decidable (facetsMatch src out) := by
  unfold facetsMatch; infer_instance

/-- A row-dimension record: exactly the four attributes
`copy_sheet_layout` copies (`height`, `hidden`, `outlineLevel`,
`collapsed`). -/
structure RowDim where
  height : Option Nat
  hidden : Bool
  outlineLevel : Nat
  collapsed : Bool
  deriving DecidableEq

/-- A column-dimension record: exactly the four attributes
`copy_sheet_layout` copies (`width`, `hidden`, `outlineLevel`,
`collapsed`). -/
structure ColDim where
  width : Option Nat
  hidden : Bool
  outlineLevel : Nat
  collapsed : Bool
  deriving DecidableEq

/-- A merged-cell range (openpyxl's `CellRange` bounds). -/
structure MergeRange where
  minRow : Nat
  minCol : Nat
  maxRow : Nat
  maxCol : Nat
  deriving DecidableEq

/-- A worksheet: title, the 1-indexed cell grid, the reported extents, and
the sheet-level layout state touched by `copy_sheet_layout`. -/
structure Sheet where
  title : String
  cell : Nat → Nat → Cell
  maxRow : Nat
  maxCol : Nat
  freezePanes : Option Nat
  sheetFormat : Nat
  sheetProperties : Nat
  pageSetup : Nat
  pageMargins : Nat
  printOptions : Nat
  colDims : List (String × ColDim)
  rowDims : List (Nat × RowDim)
  merged : List MergeRange

/-- The active sheet of a fresh `Workbook()`: empty grid, extents reported
as 1, default layout. -/
def emptySheet : Sheet :=
  { title := "Sheet", cell := fun _ _ => emptyCell, maxRow := 1, maxCol := 1,
    freezePanes := none, sheetFormat := 0, sheetProperties := 0,
    pageSetup := 0, pageMargins := 0, printOptions := 0,
    colDims := [], rowDims := [], merged := [] }

/-- The sheet-level layout state as one tuple (used to state that cell
writes leave layout alone and that `copy_sheet_layout` transfers it). -/
def Sheet.layoutData (ws : Sheet) :
    Option Nat × Nat × Nat × Nat × Nat × Nat × List (String × ColDim) ×
      List (Nat × RowDim) × List MergeRange :=
  (ws.freezePanes, ws.sheetFormat, ws.sheetProperties, ws.pageSetup,
    ws.pageMargins, ws.printOptions, ws.colDims, ws.rowDims, ws.merged)

/-- Model of `copy_sheet_layout(src_ws, dst_ws)` from `app.py`: copy freeze panes,
sheet format/properties, page setup/margins/print options; for every
column/row dimension entry of the source, create the entry in the
destination and copy its four attributes; re-create every merged range. -/
def copy_sheet_layout (src dst : Sheet) : Sheet :=
  { dst with
    freezePanes := src.freezePanes,
    sheetFormat := src.sheetFormat,
    sheetProperties := src.sheetProperties,
    pageSetup := src.pageSetup,
    pageMargins := src.pageMargins,
    printOptions := src.printOptions,
    colDims := dst.colDims ++ src.colDims.map
      (fun p => (p.1, { width := p.2.width, hidden := p.2.hidden,
                        outlineLevel := p.2.outlineLevel,
                        collapsed := p.2.collapsed })),
    rowDims := dst.rowDims ++ src.rowDims.map
      (fun p => (p.1, { height := p.2.height, hidden := p.2.hidden,
                        outlineLevel := p.2.outlineLevel,
                        collapsed := p.2.collapsed })),
    merged := dst.merged ++ src.merged }

/-- Store cell `v` at position `(r, c)`: `dst_ws.cell(row=r, column=c)`
materialises the cell (extending the reported extents) and `copy_cell`
overwrites it. -/
def writeCell (ws : Sheet) (r c : Nat) (v : Cell) : Sheet :=
  { ws with
    cell := fun r2 c2 => if r2 = r ∧ c2 = c then v else ws.cell r2 c2,
    maxRow := max ws.maxRow r,
    maxCol := max ws.maxCol c }

/-- The inner loop `for c in range(1, max_col + 1)` of `app.py`, copying
source row `srcR` into destination row `dstR` across columns `1..n`
(in increasing column order). -/
def copyRowCols (src : Sheet) (srcR dstR : Nat) (dst : Sheet) : Nat → Sheet
  | 0 => dst
  | n + 1 =>
    let w := copyRowCols src srcR dstR dst n
    writeCell w dstR (n + 1)
      (copy_cell (src.cell srcR (n + 1)) (w.cell dstR (n + 1)))

/-- The header loop `for r in range(1, header_rows + 1)` of
`split_excel_to_xlsx_bytes`: copy rows `1..hr` in place. -/
def copyHeaderRows (src : Sheet) (maxCol : Nat) (dst : Sheet) : Nat → Sheet
  | 0 => dst
  | r + 1 => copyRowCols src (r + 1) (r + 1) (copyHeaderRows src maxCol dst r) maxCol

/-- The data loop `for k in range(start_idx, end_idx)` of
`split_excel_to_xlsx_bytes`: offset `t` copies source row
`dataStart + startIdx + t` to destination row `dataStart + t`
(`out_row` starts at `data_start` and increments). -/
def copyDataRows (src : Sheet) (maxCol dataStart startIdx : Nat) (dst : Sheet) :
    Nat → Sheet
  | 0 => dst
  | t + 1 =>
    copyRowCols src (dataStart + startIdx + t) (dataStart + t)
      (copyDataRows src maxCol dataStart startIdx dst t) maxCol

/-- The per-part body of `split_excel_to_xlsx_bytes`: fresh workbook,
retitle its active sheet, copy sheet layout, copy the header rows, then
copy data offsets `startIdx..endIdx-1`. -/
def buildPart (src : Sheet) (maxCol headerRows startIdx endIdx : Nat) : Sheet :=
  let dataStart := headerRows + 1
  let o1 : Sheet := { emptySheet with title := src.title }
  let o2 := copy_sheet_layout src o1
  let o3 := copyHeaderRows src maxCol o2 headerRows
  copyDataRows src maxCol dataStart startIdx o3 (endIdx - startIdx)

/-- Python truthiness of `max_col_override or ws.max_column`: `None`
and `0` both fall back to the detected column count. -/
def resolveMaxCol (ov : Option Nat) (detected : Nat) : Nat :=
  match ov with
  | none => detected
  | some v => if v = 0 then detected else v

/-- Ceiling division, modelling `math.ceil(a / b)` on naturals. -/
def ceilDiv (a b : Nat) : Nat := (a + b - 1) / b

/-- The output filename f-string `part_{i+1}_of_{parts}.xlsx`
(`i` 0-based). -/
def partName (i parts : Nat) : String :=
  "part_" ++ toString (i + 1) ++ "_of_" ++ toString parts ++ ".xlsx"

/-- The list built by the `for i in range(parts)` loop of
`split_excel_to_xlsx_bytes` on a sheet with `dataRows` data rows:
one named part per chunk. -/
def splitParts (ws : Sheet) (chunk_size header_rows : Nat)
    (max_col_override : Option Nat) : List (String × Sheet) :=
  let max_col := resolveMaxCol max_col_override ws.maxCol
  let data_rows := max 0 (ws.maxRow - header_rows)
  let parts := ceilDiv data_rows chunk_size
  (List.range parts).map (fun i =>
    let start_idx := i * chunk_size
    let end_idx := min ((i + 1) * chunk_size) data_rows
    (partName i parts, buildPart ws max_col header_rows start_idx end_idx))

/-- Model of `split_excel_to_xlsx_bytes` from `app.py`, starting from the selected
worksheet: resolve the column extent, count the data rows, fail when there
are none, otherwise emit the list of named output sheets. -/
def split_excel_to_xlsx_bytes (ws : Sheet) (chunk_size header_rows : Nat)
    (max_col_override : Option Nat) : Except String (List (String × Sheet)) :=
  let max_row := ws.maxRow
  let data_rows := max 0 (max_row - header_rows)
  if data_rows = 0 then
    Except.error "No data rows found (expected data starting at row 3)."
  else
    Except.ok (splitParts ws chunk_size header_rows max_col_override)

/-- The compression method of an archive entry. -/
inductive Compression where
  | stored
  | deflated
  deriving DecidableEq

/-- One entry of the produced archive: name, payload, compression. -/
structure ZipEntry (α : Type) where
  name : String
  data : α
  compression : Compression

/-- Model of `make_zip(files)` from `app.py`: write each `(fname, fbytes)` pair into
a `ZIP_DEFLATED` archive under its given name, in order. -/
def make_zip {α : Type} (files : List (String × α)) : List (ZipEntry α) :=
  files.map (fun f => { name := f.1, data := f.2, compression := Compression.deflated })

/-- The 0-based range of data-region offsets each part covers:
`start = i * chunk_size`, `end = min((i + 1) * chunk_size, data_rows)`. -/
def partRanges (data_rows chunk_size : Nat) : List (Nat × Nat) :=
  (List.range (ceilDiv data_rows chunk_size)).map
    (fun i => (i * chunk_size, min ((i + 1) * chunk_size) data_rows))

/-- The number of data rows part `i` receives. -/
def partLen (data_rows chunk_size i : Nat) : Nat :=
  min ((i + 1) * chunk_size) data_rows - i * chunk_size

/-- The values of row `r`, columns `1..maxCol`, of a sheet. -/
def rowVals (ws : Sheet) (r maxCol : Nat) : List (Option Int) :=
  (List.range maxCol).map (fun j => (ws.cell r (j + 1)).value)

/-- The values of `count` consecutive rows starting at `startRow`. -/
def rowsVals (ws : Sheet) (startRow count maxCol : Nat) : List (List (Option Int)) :=
  (List.range count).map (fun t => rowVals ws (startRow + t) maxCol)

/-! ### Cell-grid characterization of the copy loops -/

@[simp]
lemma writeCell_cell (ws : Sheet) (r c : Nat) (v : Cell) (r2 c2 : Nat) :
    (writeCell ws r c v).cell r2 c2 =
      if r2 = r ∧ c2 = c then v else ws.cell r2 c2 := rfl

@[simp]
lemma writeCell_maxRow (ws : Sheet) (r c : Nat) (v : Cell) :
    (writeCell ws r c v).maxRow = max ws.maxRow r := rfl

@[simp]
lemma writeCell_maxCol (ws : Sheet) (r c : Nat) (v : Cell) :
    (writeCell ws r c v).maxCol = max ws.maxCol c := rfl

@[simp]
lemma writeCell_layoutData (ws : Sheet) (r c : Nat) (v : Cell) :
    (writeCell ws r c v).layoutData = ws.layoutData := rfl

@[simp]
lemma writeCell_title (ws : Sheet) (r c : Nat) (v : Cell) :
    (writeCell ws r c v).title = ws.title := rfl

lemma copyRowCols_cell (src : Sheet) (srcR dstR : Nat) (dst : Sheet) :
    ∀ n r2 c2, (copyRowCols src srcR dstR dst n).cell r2 c2 =
      if r2 = dstR ∧ 1 ≤ c2 ∧ c2 ≤ n
      then copy_cell (src.cell srcR c2) (dst.cell dstR c2)
      else dst.cell r2 c2 := by
  intro n
  induction n with
  | zero =>
    intro r2 c2
    rw [if_neg (by omega)]
    rfl
  | succ n ih =>
    intro r2 c2
    show (writeCell _ dstR (n + 1) _).cell r2 c2 = _
    rw [writeCell_cell]
    have hwin : (copyRowCols src srcR dstR dst n).cell dstR (n + 1) =
        dst.cell dstR (n + 1) := by
      rw [ih, if_neg (by omega)]
    by_cases hr : r2 = dstR
    · subst hr
      by_cases hc : c2 = n + 1
      · subst hc
        rw [if_pos ⟨rfl, rfl⟩, hwin, if_pos ⟨rfl, by omega, by omega⟩]
      · rw [if_neg (fun hh => hc hh.2), ih]
        by_cases h2 : 1 ≤ c2 ∧ c2 ≤ n
        · obtain ⟨h2a, h2b⟩ := h2
          rw [if_pos ⟨rfl, h2a, h2b⟩, if_pos ⟨rfl, h2a, by omega⟩]
        · rw [if_neg (fun hh => h2 hh.2),
            if_neg (by intro hh; obtain ⟨h1, hb, hcc⟩ := hh; exact h2 ⟨hb, by omega⟩)]
    · rw [if_neg (fun hh => hr hh.1), ih, if_neg (fun hh => hr hh.1),
        if_neg (fun hh => hr hh.1)]

lemma copyRowCols_maxRow (src : Sheet) (srcR dstR : Nat) (dst : Sheet) :
    ∀ n, (copyRowCols src srcR dstR dst n).maxRow =
      if n = 0 then dst.maxRow else max dst.maxRow dstR := by
  intro n
  induction n with
  | zero => rfl
  | succ n ih =>
    show (writeCell _ dstR (n + 1) _).maxRow = _
    rw [writeCell_maxRow, ih]
    by_cases h : n = 0
    · subst h; simp
    · rw [if_neg h, if_neg (by omega)]
      omega

lemma copyRowCols_layoutData (src : Sheet) (srcR dstR : Nat) (dst : Sheet) :
    ∀ n, (copyRowCols src srcR dstR dst n).layoutData = dst.layoutData := by
  intro n
  induction n with
  | zero => rfl
  | succ n ih =>
    show (writeCell _ dstR (n + 1) _).layoutData = _
    rw [writeCell_layoutData, ih]

lemma copyRowCols_title (src : Sheet) (srcR dstR : Nat) (dst : Sheet) :
    ∀ n, (copyRowCols src srcR dstR dst n).title = dst.title := by
  intro n
  induction n with
  | zero => rfl
  | succ n ih =>
    show (writeCell _ dstR (n + 1) _).title = _
    rw [writeCell_title, ih]

lemma copyHeaderRows_cell (src : Sheet) (maxCol : Nat) (dst : Sheet) :
    ∀ hR r2 c2, (copyHeaderRows src maxCol dst hR).cell r2 c2 =
      if 1 ≤ r2 ∧ r2 ≤ hR ∧ 1 ≤ c2 ∧ c2 ≤ maxCol
      then copy_cell (src.cell r2 c2) (dst.cell r2 c2)
      else dst.cell r2 c2 := by
  intro hR
  induction hR with
  | zero =>
    intro r2 c2
    rw [if_neg (by omega)]
    rfl
  | succ hR ih =>
    intro r2 c2
    show (copyRowCols src (hR + 1) (hR + 1) _ maxCol).cell r2 c2 = _
    rw [copyRowCols_cell]
    have hwin : ∀ c, (copyHeaderRows src maxCol dst hR).cell (hR + 1) c =
        dst.cell (hR + 1) c := by
      intro c
      rw [ih, if_neg (by omega)]
    by_cases hr : r2 = hR + 1
    · subst hr
      by_cases hc : 1 ≤ c2 ∧ c2 ≤ maxCol
      · obtain ⟨hca, hcb⟩ := hc
        rw [if_pos ⟨rfl, hca, hcb⟩, hwin, if_pos ⟨by omega, by omega, hca, hcb⟩]
      · rw [if_neg (by intro hh; exact hc ⟨hh.2.1, hh.2.2⟩), ih,
          if_neg (by omega),
          if_neg (by intro hh; exact hc ⟨hh.2.2.1, hh.2.2.2⟩)]
    · rw [if_neg (fun hh => hr hh.1), ih]
      by_cases h2 : 1 ≤ r2 ∧ r2 ≤ hR ∧ 1 ≤ c2 ∧ c2 ≤ maxCol
      · obtain ⟨h2a, h2b, h2c⟩ := h2
        rw [if_pos ⟨h2a, h2b, h2c⟩, if_pos ⟨h2a, by omega, h2c⟩]
      · rw [if_neg h2,
          if_neg (by intro hh; obtain ⟨ha, hb, hcd⟩ := hh; exact h2 ⟨ha, by omega, hcd⟩)]

lemma copyHeaderRows_maxRow (src : Sheet) (maxCol : Nat) (dst : Sheet)
    (hmc : 1 ≤ maxCol) :
    ∀ hR, (copyHeaderRows src maxCol dst hR).maxRow = max dst.maxRow hR := by
  intro hR
  induction hR with
  | zero => simp [copyHeaderRows]
  | succ hR ih =>
    show (copyRowCols src (hR + 1) (hR + 1) _ maxCol).maxRow = _
    rw [copyRowCols_maxRow, if_neg (by omega), ih]
    omega

lemma copyHeaderRows_layoutData (src : Sheet) (maxCol : Nat) (dst : Sheet) :
    ∀ hR, (copyHeaderRows src maxCol dst hR).layoutData = dst.layoutData := by
  intro hR
  induction hR with
  | zero => rfl
  | succ hR ih =>
    show (copyRowCols src (hR + 1) (hR + 1) _ maxCol).layoutData = _
    rw [copyRowCols_layoutData, ih]

lemma copyHeaderRows_title (src : Sheet) (maxCol : Nat) (dst : Sheet) :
    ∀ hR, (copyHeaderRows src maxCol dst hR).title = dst.title := by
  intro hR
  induction hR with
  | zero => rfl
  | succ hR ih =>
    show (copyRowCols src (hR + 1) (hR + 1) _ maxCol).title = _
    rw [copyRowCols_title, ih]

lemma copyDataRows_cell (src : Sheet) (maxCol dataStart startIdx : Nat)
    (dst : Sheet) :
    ∀ len r2 c2, (copyDataRows src maxCol dataStart startIdx dst len).cell r2 c2 =
      if dataStart ≤ r2 ∧ r2 < dataStart + len ∧ 1 ≤ c2 ∧ c2 ≤ maxCol
      then copy_cell (src.cell (r2 + startIdx) c2) (dst.cell r2 c2)
      else dst.cell r2 c2 := by
  intro len
  induction len with
  | zero =>
    intro r2 c2
    rw [if_neg (by omega)]
    rfl
  | succ len ih =>
    intro r2 c2
    show (copyRowCols src (dataStart + startIdx + len) (dataStart + len) _ maxCol).cell r2 c2 = _
    rw [copyRowCols_cell]
    have hwin : ∀ c,
        (copyDataRows src maxCol dataStart startIdx dst len).cell (dataStart + len) c =
          dst.cell (dataStart + len) c := by
      intro c
      rw [ih, if_neg (by omega)]
    by_cases hr : r2 = dataStart + len
    · subst hr
      by_cases hc : 1 ≤ c2 ∧ c2 ≤ maxCol
      · obtain ⟨hca, hcb⟩ := hc
        rw [if_pos ⟨rfl, hca, hcb⟩, hwin, if_pos ⟨by omega, by omega, hca, hcb⟩]
        have harith : dataStart + startIdx + len = dataStart + len + startIdx := by omega
        rw [harith]
      · rw [if_neg (by intro hh; exact hc ⟨hh.2.1, hh.2.2⟩), ih,
          if_neg (by omega),
          if_neg (by intro hh; exact hc ⟨hh.2.2.1, hh.2.2.2⟩)]
    · rw [if_neg (fun hh => hr hh.1), ih]
      by_cases h2 : dataStart ≤ r2 ∧ r2 < dataStart + len ∧ 1 ≤ c2 ∧ c2 ≤ maxCol
      · obtain ⟨h2a, h2b, h2c⟩ := h2
        rw [if_pos ⟨h2a, h2b, h2c⟩, if_pos ⟨h2a, by omega, h2c⟩]
      · rw [if_neg h2,
          if_neg (by intro hh; obtain ⟨ha, hb, hcd⟩ := hh; exact h2 ⟨ha, by omega, hcd⟩)]

lemma copyDataRows_maxRow (src : Sheet) (maxCol dataStart startIdx : Nat)
    (dst : Sheet) (hmc : 1 ≤ maxCol) :
    ∀ len, (copyDataRows src maxCol dataStart startIdx dst len).maxRow =
      if len = 0 then dst.maxRow else max dst.maxRow (dataStart + len - 1) := by
  intro len
  induction len with
  | zero => rfl
  | succ len ih =>
    show (copyRowCols src (dataStart + startIdx + len) (dataStart + len) _ maxCol).maxRow = _
    rw [copyRowCols_maxRow, if_neg (by omega), ih]
    by_cases h : len = 0
    · subst h; simp
    · rw [if_neg h, if_neg (by omega)]
      omega

lemma copyDataRows_layoutData (src : Sheet) (maxCol dataStart startIdx : Nat)
    (dst : Sheet) :
    ∀ len, (copyDataRows src maxCol dataStart startIdx dst len).layoutData =
      dst.layoutData := by
  intro len
  induction len with
  | zero => rfl
  | succ len ih =>
    show (copyRowCols src (dataStart + startIdx + len) (dataStart + len) _ maxCol).layoutData = _
    rw [copyRowCols_layoutData, ih]

lemma copyDataRows_title (src : Sheet) (maxCol dataStart startIdx : Nat)
    (dst : Sheet) :
    ∀ len, (copyDataRows src maxCol dataStart startIdx dst len).title =
      dst.title := by
  intro len
  induction len with
  | zero => rfl
  | succ len ih =>
    show (copyRowCols src (dataStart + startIdx + len) (dataStart + len) _ maxCol).title = _
    rw [copyRowCols_title, ih]

/-! ### `copy_cell` and `buildPart` facts -/

lemma copy_cell_facets (s d : Cell) : facetsMatch s (copy_cell s d) := by
  cases hs : s.hasStyle <;> simp [copy_cell, facetsMatch, hs]

lemma colDims_copy_id :
    ∀ l : List (String × ColDim),
      l.map (fun p => ((p.1 : String),
        ({ width := p.2.width, hidden := p.2.hidden,
           outlineLevel := p.2.outlineLevel, collapsed := p.2.collapsed } : ColDim))) = l := by
  intro l
  induction l with
  | nil => rfl
  | cons a t ih => rw [List.map_cons, ih]

lemma rowDims_copy_id :
    ∀ l : List (Nat × RowDim),
      l.map (fun p => ((p.1 : Nat),
        ({ height := p.2.height, hidden := p.2.hidden,
           outlineLevel := p.2.outlineLevel, collapsed := p.2.collapsed } : RowDim))) = l := by
  intro l
  induction l with
  | nil => rfl
  | cons a t ih => rw [List.map_cons, ih]

lemma buildPart_cell_header (src : Sheet) (maxCol hr s e r c : Nat)
    (h1 : 1 ≤ r) (h2 : r ≤ hr) (h3 : 1 ≤ c) (h4 : c ≤ maxCol) :
    (buildPart src maxCol hr s e).cell r c = copy_cell (src.cell r c) emptyCell := by
  show (copyDataRows src maxCol (hr + 1) s
      (copyHeaderRows src maxCol
        (copy_sheet_layout src { emptySheet with title := src.title }) hr)
      (e - s)).cell r c = _
  rw [copyDataRows_cell, if_neg (by omega), copyHeaderRows_cell,
    if_pos ⟨h1, h2, h3, h4⟩]
  rfl

lemma buildPart_cell_data (src : Sheet) (maxCol hr s e r c : Nat)
    (h1 : hr + 1 ≤ r) (h2 : r < hr + 1 + (e - s)) (h3 : 1 ≤ c) (h4 : c ≤ maxCol) :
    (buildPart src maxCol hr s e).cell r c = copy_cell (src.cell (r + s) c) emptyCell := by
  show (copyDataRows src maxCol (hr + 1) s
      (copyHeaderRows src maxCol
        (copy_sheet_layout src { emptySheet with title := src.title }) hr)
      (e - s)).cell r c = _
  rw [copyDataRows_cell, if_pos ⟨h1, h2, h3, h4⟩, copyHeaderRows_cell,
    if_neg (by omega)]
  rfl

lemma buildPart_layoutData (src : Sheet) (maxCol hr s e : Nat) :
    (buildPart src maxCol hr s e).layoutData = src.layoutData := by
  show (copyDataRows src maxCol (hr + 1) s
      (copyHeaderRows src maxCol
        (copy_sheet_layout src { emptySheet with title := src.title }) hr)
      (e - s)).layoutData = _
  rw [copyDataRows_layoutData, copyHeaderRows_layoutData]
  simp [copy_sheet_layout, Sheet.layoutData, emptySheet, colDims_copy_id,
    rowDims_copy_id]

lemma buildPart_title (src : Sheet) (maxCol hr s e : Nat) :
    (buildPart src maxCol hr s e).title = src.title := by
  show (copyDataRows src maxCol (hr + 1) s
      (copyHeaderRows src maxCol
        (copy_sheet_layout src { emptySheet with title := src.title }) hr)
      (e - s)).title = _
  rw [copyDataRows_title, copyHeaderRows_title]
  rfl

lemma buildPart_maxRow (src : Sheet) (maxCol hr s e : Nat)
    (hmc : 1 ≤ maxCol) (hlen : s < e) :
    (buildPart src maxCol hr s e).maxRow = hr + (e - s) := by
  show (copyDataRows src maxCol (hr + 1) s
      (copyHeaderRows src maxCol
        (copy_sheet_layout src { emptySheet with title := src.title }) hr)
      (e - s)).maxRow = _
  rw [copyDataRows_maxRow _ _ _ _ _ hmc, if_neg (by omega),
    copyHeaderRows_maxRow _ _ _ hmc]
  have hbase : (copy_sheet_layout src { emptySheet with title := src.title }).maxRow = 1 := rfl
  rw [hbase]
  omega

/-! ### Arithmetic of the row partition -/

lemma ceilDiv_le_mul (d c : Nat) (hc : 0 < c) : d ≤ ceilDiv d c * c := by
  unfold ceilDiv
  have h1 := Nat.div_add_mod (d + c - 1) c
  have h2 := Nat.mod_lt (d + c - 1) hc
  rw [Nat.mul_comm]
  set a := c * ((d + c - 1) / c) with ha
  set m := (d + c - 1) % c with hm
  omega

lemma pred_mul_lt (d c : Nat) (hc : 0 < c) (hd : 0 < d) :
    (ceilDiv d c - 1) * c < d := by
  unfold ceilDiv
  have h1 := Nat.div_add_mod (d + c - 1) c
  have h2 := Nat.mod_lt (d + c - 1) hc
  rw [Nat.sub_mul, Nat.one_mul, Nat.mul_comm]
  set a := c * ((d + c - 1) / c) with ha
  set m := (d + c - 1) % c with hm
  omega

lemma ceilDiv_pos (d c : Nat) (hc : 0 < c) (hd : 0 < d) : 0 < ceilDiv d c := by
  unfold ceilDiv
  exact Nat.div_pos (by omega) hc

lemma ceilDiv_zero_left (c : Nat) (hc : 0 < c) : ceilDiv 0 c = 0 := by
  unfold ceilDiv
  exact Nat.div_eq_of_lt (by omega)

lemma ceilDiv_mod (d c : Nat) (hc : 0 < c) :
    ceilDiv d c = if d % c = 0 then d / c else d / c + 1 := by
  have h1 := Nat.div_add_mod d c
  have h2 := Nat.mod_lt d hc
  by_cases h : d % c = 0
  · rw [if_pos h]
    have hh : c * (d / c) = d := by omega
    unfold ceilDiv
    rw [show d + c - 1 = c - 1 + d / c * c from by rw [Nat.mul_comm]; omega]
    rw [Nat.add_mul_div_right _ _ hc, Nat.div_eq_of_lt (by omega)]
    omega
  · rw [if_neg h]
    unfold ceilDiv
    rw [show d + c - 1 = d % c - 1 + (d / c + 1) * c from by
      rw [Nat.add_mul, Nat.one_mul, Nat.mul_comm (d / c) c]; omega]
    rw [Nat.add_mul_div_right _ _ hc, Nat.div_eq_of_lt (by omega)]
    omega

lemma partLen_last (d c : Nat) (hc : 0 < c) (hd : 0 < d) :
    partLen d c (ceilDiv d c - 1) = if d % c = 0 then c else d % c := by
  have hP1 : 1 ≤ ceilDiv d c := ceilDiv_pos d c hc hd
  have hle : d ≤ ceilDiv d c * c := ceilDiv_le_mul d c hc
  unfold partLen
  rw [show ceilDiv d c - 1 + 1 = ceilDiv d c from by omega, Nat.min_eq_right hle]
  have h1 := Nat.div_add_mod d c
  have h2 := Nat.mod_lt d hc
  by_cases h : d % c = 0
  · rw [if_pos h, ceilDiv_mod d c hc, if_pos h]
    have hq1 : 1 ≤ d / c := by
      rcases Nat.eq_zero_or_pos (d / c) with hq | hq
      · rw [hq, Nat.mul_zero] at h1
        omega
      · exact hq
    have h3 : c ≤ c * (d / c) := Nat.le_mul_of_pos_right c hq1
    rw [Nat.sub_mul, Nat.one_mul, Nat.mul_comm (d / c) c]
    omega
  · rw [if_neg h, ceilDiv_mod d c hc, if_neg h, Nat.add_sub_cancel, Nat.mul_comm]
    omega

lemma partLen_mid (d c i : Nat) (hc : 0 < c) (hi : i + 1 < ceilDiv d c) :
    partLen d c i = c := by
  have hd : 0 < d := by
    rcases Nat.eq_zero_or_pos d with rfl | hd
    · rw [ceilDiv_zero_left c hc] at hi
      omega
    · exact hd
  have h1 : (i + 1) * c ≤ (ceilDiv d c - 1) * c := Nat.mul_le_mul_right c (by omega)
  have h2 := pred_mul_lt d c hc hd
  unfold partLen
  have hmin : min ((i + 1) * c) d = (i + 1) * c := Nat.min_eq_left (by omega)
  rw [hmin, Nat.add_mul, Nat.one_mul]
  omega

lemma sum_partLen_aux (d c : Nat) :
    ∀ k, ((List.range k).map (fun i => partLen d c i)).sum = min (k * c) d := by
  intro k
  induction k with
  | zero => simp
  | succ k ih =>
    rw [List.range_succ, List.map_append, List.sum_append]
    simp only [List.map_cons, List.map_nil, List.sum_cons, List.sum_nil]
    rw [ih]
    unfold partLen
    rw [show (k + 1) * c = k * c + c from by rw [Nat.add_mul, Nat.one_mul]]
    set a := k * c with ha
    omega

lemma sum_partLen (d c : Nat) (hc : 0 < c) :
    ((List.range (ceilDiv d c)).map (fun i => partLen d c i)).sum = d := by
  rw [sum_partLen_aux d c, Nat.min_eq_right (ceilDiv_le_mul d c hc)]

lemma cover_mem (d c j : Nat) (hc : 0 < c) (hj : j < d) :
    j / c < ceilDiv d c ∧ j / c * c ≤ j ∧ j < min ((j / c + 1) * c) d := by
  have h1 := Nat.div_add_mod j c
  have h2 := Nat.mod_lt j hc
  refine ⟨?_, Nat.div_mul_le_self j c, ?_⟩
  · have hlt : j < ceilDiv d c * c := lt_of_lt_of_le hj (ceilDiv_le_mul d c hc)
    exact (Nat.div_lt_iff_lt_mul hc).mpr hlt
  · refine lt_min ?_ hj
    rw [Nat.add_mul, Nat.one_mul, Nat.mul_comm (j / c) c]
    omega

lemma cover_unique (d c j i1 i2 : Nat)
    (h1 : i1 * c ≤ j ∧ j < min ((i1 + 1) * c) d)
    (h2 : i2 * c ≤ j ∧ j < min ((i2 + 1) * c) d) :
    i1 = i2 := by
  rcases Nat.lt_trichotomy i1 i2 with hlt | heq | hgt
  · exfalso
    have hA : (i1 + 1) * c ≤ i2 * c := Nat.mul_le_mul_right c (by omega)
    have hB : j < (i1 + 1) * c := lt_of_lt_of_le h1.2 (min_le_left _ _)
    have hC := h2.1
    omega
  · exact heq
  · exfalso
    have hA : (i2 + 1) * c ≤ i1 * c := Nat.mul_le_mul_right c (by omega)
    have hB : j < (i2 + 1) * c := lt_of_lt_of_le h2.2 (min_le_left _ _)
    have hC := h1.1
    omega

lemma part_end_eq_next_start (d c i : Nat) (hc : 0 < c) (hi : i + 1 < ceilDiv d c) :
    min ((i + 1) * c) d = (i + 1) * c := by
  have h := partLen_mid d c i hc hi
  unfold partLen at h
  have e1 : (i + 1) * c = i * c + c := by rw [Nat.add_mul, Nat.one_mul]
  rw [e1] at h ⊢
  have hb := min_le_left (i * c + c) d
  set a := i * c with ha
  omega

/-! ### The success path of `split_excel_to_xlsx_bytes` -/

lemma split_eq_ok (ws : Sheet) (cs hr : Nat) (ov : Option Nat)
    (hd : hr < ws.maxRow) :
    split_excel_to_xlsx_bytes ws cs hr ov = Except.ok (splitParts ws cs hr ov) := by
  have h0 : ¬ (ws.maxRow - hr = 0) := by omega
  simp [split_excel_to_xlsx_bytes, h0]

lemma split_ok_inv (ws : Sheet) (cs hr : Nat) (ov : Option Nat)
    (outs : List (String × Sheet))
    (hok : split_excel_to_xlsx_bytes ws cs hr ov = Except.ok outs) :
    hr < ws.maxRow ∧ outs = splitParts ws cs hr ov := by
  by_cases hd : hr < ws.maxRow
  · refine ⟨hd, ?_⟩
    rw [split_eq_ok ws cs hr ov hd] at hok
    exact (Except.ok.inj hok).symm
  · exfalso
    have h0 : ws.maxRow - hr = 0 := by omega
    simp [split_excel_to_xlsx_bytes, h0] at hok

lemma split_err (ws : Sheet) (cs hr : Nat) (ov : Option Nat)
    (hd : ws.maxRow ≤ hr) :
    split_excel_to_xlsx_bytes ws cs hr ov =
      Except.error "No data rows found (expected data starting at row 3)." := by
  have h0 : ws.maxRow - hr = 0 := by omega
  simp [split_excel_to_xlsx_bytes, h0]

lemma splitParts_length (ws : Sheet) (cs hr : Nat) (ov : Option Nat) :
    (splitParts ws cs hr ov).length = ceilDiv (max 0 (ws.maxRow - hr)) cs := by
  simp [splitParts]

lemma splitParts_get (ws : Sheet) (cs hr : Nat) (ov : Option Nat) (i : Nat)
    (hi : i < (splitParts ws cs hr ov).length) :
    (splitParts ws cs hr ov).get ⟨i, hi⟩ =
      (partName i (ceilDiv (max 0 (ws.maxRow - hr)) cs),
        buildPart ws (resolveMaxCol ov ws.maxCol) hr (i * cs)
          (min ((i + 1) * cs) (max 0 (ws.maxRow - hr)))) := by
  have hi2 : i < ceilDiv (max 0 (ws.maxRow - hr)) cs := by
    rw [splitParts_length] at hi
    exact hi
  simp [splitParts]

/-! ### Concatenation of the parts reconstructs the data region -/

lemma splitParts_eq (ws : Sheet) (cs hr : Nat) (ov : Option Nat) :
    splitParts ws cs hr ov =
      (List.range (ceilDiv (ws.maxRow - hr) cs)).map (fun i =>
        (partName i (ceilDiv (ws.maxRow - hr) cs),
          buildPart ws (resolveMaxCol ov ws.maxCol) hr (i * cs)
            (min ((i + 1) * cs) (ws.maxRow - hr)))) := by
  simp [splitParts, Nat.zero_max]

lemma join_chunks_aux {α : Type} (g : Nat → α) (d c : Nat) :
    ∀ k, (((List.range k).map
        (fun i => (List.range (partLen d c i)).map (fun t => g (i * c + t)))).flatten) =
      (List.range (min (k * c) d)).map g := by
  intro k
  induction k with
  | zero => simp
  | succ k ih =>
    rw [List.range_succ, List.map_append, List.flatten_append, ih]
    simp only [List.map_cons, List.map_nil, List.flatten_cons, List.flatten_nil,
      List.append_nil]
    rcases le_or_lt d (k * c) with hle | hlt
    · have hp : partLen d c k = 0 := by
        unfold partLen
        have hb := min_le_right ((k + 1) * c) d
        omega
      have he : min (k * c) d = min ((k + 1) * c) d := by
        rw [show (k + 1) * c = k * c + c from by rw [Nat.add_mul, Nat.one_mul]]
        set a := k * c with ha
        omega
      rw [hp, he]
      simp
    · have hmin : min (k * c) d = k * c := Nat.min_eq_left (le_of_lt hlt)
      have hmin2 : min ((k + 1) * c) d = k * c + partLen d c k := by
        unfold partLen
        rw [show (k + 1) * c = k * c + c from by rw [Nat.add_mul, Nat.one_mul]]
        set a := k * c with ha
        omega
      rw [hmin, hmin2, List.range_add, List.map_append, List.map_map]
      rfl

lemma join_chunks {α : Type} (g : Nat → α) (d c : Nat) (hc : 0 < c) :
    (((List.range (ceilDiv d c)).map
        (fun i => (List.range (partLen d c i)).map (fun t => g (i * c + t)))).flatten) =
      (List.range d).map g := by
  rw [join_chunks_aux g d c, Nat.min_eq_right (ceilDiv_le_mul d c hc)]

lemma rowsVals_buildPart (ws : Sheet) (mc hr s e : Nat) :
    rowsVals (buildPart ws mc hr s e) (hr + 1) (e - s) mc =
      (List.range (e - s)).map (fun t => rowVals ws (hr + 1 + (s + t)) mc) := by
  unfold rowsVals
  apply List.map_congr_left
  intro t ht
  rw [List.mem_range] at ht
  unfold rowVals
  apply List.map_congr_left
  intro j hj
  rw [List.mem_range] at hj
  rw [buildPart_cell_data ws mc hr s e (hr + 1 + t) (j + 1)
    (by omega) (by omega) (by omega) (by omega)]
  rw [(copy_cell_facets (ws.cell (hr + 1 + t + s) (j + 1)) emptyCell).1]
  rw [show hr + 1 + t + s = hr + 1 + (s + t) from by omega]

/-! ### Concrete sheets used to instantiate the theorems -/

/-- A concrete source sheet: 2 header rows plus 2500 data rows, 4 columns,
distinct values everywhere, no layout extras. -/
def demoSheet : Sheet :=
  { title := "Inventory",
    cell := fun r c => { emptyCell with value := some ((r : Int) * 100 + (c : Int)) },
    maxRow := 2502, maxCol := 4,
    freezePanes := none, sheetFormat := 0, sheetProperties := 0,
    pageSetup := 0, pageMargins := 0, printOptions := 0,
    colDims := [], rowDims := [], merged := [] }

/-- A sheet whose last used row is inside the header region. -/
def headerOnlySheet : Sheet :=
  { demoSheet with maxRow := 2 }

/-- A small sheet carrying row dimensions and a merged range whose row
numbers lie far beyond the populated rows. -/
def layoutDemo : Sheet :=
  { title := "L",
    cell := fun r c => { emptyCell with value := some ((r : Int) + (c : Int)) },
    maxRow := 3, maxCol := 2,
    freezePanes := some 1, sheetFormat := 7, sheetProperties := 8,
    pageSetup := 9, pageMargins := 10, printOptions := 11,
    colDims := [("A", { width := some 12, hidden := false, outlineLevel := 0,
                        collapsed := false })],
    rowDims := [(5000, { height := some 20, hidden := true, outlineLevel := 1,
                         collapsed := false })],
    merged := [{ minRow := 4000, minCol := 1, maxRow := 4100, maxCol := 2 }] }

/-! ### Small indexing helpers -/

lemma partRanges_length (d c : Nat) : (partRanges d c).length = ceilDiv d c := by
  unfold partRanges
  rw [List.length_map, List.length_range]

lemma make_zip_get {α : Type} (files : List (String × α)) (i : Nat)
    (hi : i < (make_zip files).length) (hif : i < files.length) :
    (make_zip files).get ⟨i, hi⟩ =
      { name := (files.get ⟨i, hif⟩).1, data := (files.get ⟨i, hif⟩).2,
        compression := Compression.deflated } := by
  unfold make_zip
  simp

/-! ### The claims -/

/-- C1: for `data_rows > 0` and `chunk_size > 0`, `split_excel_to_xlsx_bytes`
produces exactly `ceil(data_rows / chunk_size)` parts; the 0-based part `i`
is built from the data-region offsets `[i * chunk_size,
min((i + 1) * chunk_size, data_rows))`; when `data_rows % chunk_size = 0` the
last part has length `chunk_size`, otherwise the remainder. -/
theorem split_parts_count_and_ranges (ws : Sheet) (cs hr : Nat) (ov : Option Nat)
    (outs : List (String × Sheet)) (hcs : 0 < cs)
    (hok : split_excel_to_xlsx_bytes ws cs hr ov = Except.ok outs) :
    outs.length = ceilDiv (ws.maxRow - hr) cs ∧
    (∀ i, ∀ hi : i < outs.length,
      outs.get ⟨i, hi⟩ =
        (partName i (ceilDiv (ws.maxRow - hr) cs),
          buildPart ws (resolveMaxCol ov ws.maxCol) hr (i * cs)
            (min ((i + 1) * cs) (ws.maxRow - hr)))) ∧
    ((ws.maxRow - hr) % cs = 0 →
      partLen (ws.maxRow - hr) cs (ceilDiv (ws.maxRow - hr) cs - 1) = cs) ∧
    ((ws.maxRow - hr) % cs ≠ 0 →
      partLen (ws.maxRow - hr) cs (ceilDiv (ws.maxRow - hr) cs - 1) =
        (ws.maxRow - hr) % cs) := by
  obtain ⟨hd, houts⟩ := split_ok_inv ws cs hr ov outs hok
  subst houts
  refine ⟨?_, ?_, ?_, ?_⟩
  · rw [splitParts_length]
    simp only [Nat.zero_max]
  · intro i hi
    rw [splitParts_get ws cs hr ov i hi]
    simp only [Nat.zero_max]
  · intro h0
    rw [partLen_last (ws.maxRow - hr) cs hcs (by omega), if_pos h0]
  · intro h0
    rw [partLen_last (ws.maxRow - hr) cs hcs (by omega), if_neg h0]

theorem split_parts_count_and_ranges_witness :
    (splitParts demoSheet 999 2 none).length = 3 := by
  have h := split_parts_count_and_ranges demoSheet 999 2 none
    (splitParts demoSheet 999 2 none) (by decide)
    (split_eq_ok demoSheet 999 2 none (by decide))
  rw [h.1]
  decide

/-- C2: the parts form an exact partition of the data region — part lengths
sum to `data_rows`, every offset in `[0, data_rows)` lies in exactly one
part, and consecutive parts are contiguous (the end of part `i` is the
start of part `i + 1`). -/
theorem split_partition_exact (ws : Sheet) (cs hr : Nat) (ov : Option Nat)
    (outs : List (String × Sheet)) (hcs : 0 < cs)
    (hok : split_excel_to_xlsx_bytes ws cs hr ov = Except.ok outs) :
    ((partRanges (ws.maxRow - hr) cs).map (fun p => p.2 - p.1)).sum =
      ws.maxRow - hr ∧
    outs.length = (partRanges (ws.maxRow - hr) cs).length ∧
    (∀ j, j < ws.maxRow - hr →
      ∃! i, i < (partRanges (ws.maxRow - hr) cs).length ∧
        i * cs ≤ j ∧ j < min ((i + 1) * cs) (ws.maxRow - hr)) ∧
    (∀ i, i + 1 < (partRanges (ws.maxRow - hr) cs).length →
      min ((i + 1) * cs) (ws.maxRow - hr) = (i + 1) * cs) := by
  obtain ⟨hd, houts⟩ := split_ok_inv ws cs hr ov outs hok
  subst houts
  refine ⟨?_, ?_, ?_, ?_⟩
  · unfold partRanges
    rw [List.map_map]
    exact sum_partLen (ws.maxRow - hr) cs hcs
  · rw [splitParts_length, partRanges_length]
    simp only [Nat.zero_max]
  · intro j hj
    have hm := cover_mem (ws.maxRow - hr) cs j hcs hj
    refine ⟨j / cs, ⟨?_, hm.2.1, hm.2.2⟩, ?_⟩
    · rw [partRanges_length]
      exact hm.1
    · intro y hy
      exact cover_unique (ws.maxRow - hr) cs j y (j / cs)
        ⟨hy.2.1, hy.2.2⟩ ⟨hm.2.1, hm.2.2⟩
  · intro i hi
    rw [partRanges_length] at hi
    exact part_end_eq_next_start (ws.maxRow - hr) cs i hcs hi

theorem split_partition_exact_witness :
    ((partRanges 2500 999).map (fun p => p.2 - p.1)).sum = 2500 := by
  exact (split_partition_exact demoSheet 999 2 none
    (splitParts demoSheet 999 2 none) (by decide)
    (split_eq_ok demoSheet 999 2 none (by decide))).1

/-- C5: when the selected sheet has no rows beyond the header region
(`max_row ≤ header_rows`, i.e. `data_rows ≤ 0`), `split_excel_to_xlsx_bytes`
fails with the no-data-rows error before producing any output, and no
output list is ever returned on failure. -/
theorem split_no_data_error (ws : Sheet) (cs hr : Nat) (ov : Option Nat)
    (hd : ws.maxRow ≤ hr) :
    split_excel_to_xlsx_bytes ws cs hr ov =
      Except.error "No data rows found (expected data starting at row 3)." ∧
    ∀ outs, ¬ split_excel_to_xlsx_bytes ws cs hr ov = Except.ok outs := by
  refine ⟨split_err ws cs hr ov hd, ?_⟩
  intro outs hok
  rw [split_err ws cs hr ov hd] at hok
  exact Except.noConfusion hok

theorem split_no_data_error_witness :
    split_excel_to_xlsx_bytes headerOnlySheet 999 2 none =
      Except.error "No data rows found (expected data starting at row 3)." := by
  exact (split_no_data_error headerOnlySheet 999 2 none (by decide)).1

/-- C10: a `max_col_override` of `0` behaves exactly like no override (the
Python truthiness `or` falls back to the detected column count), and every
positive override is used as the copied column extent. -/
theorem max_col_override_truthiness :
    (∀ (ws : Sheet) (cs hr : Nat),
      split_excel_to_xlsx_bytes ws cs hr (some 0) =
        split_excel_to_xlsx_bytes ws cs hr none) ∧
    (∀ d : Nat, resolveMaxCol (some 0) d = d) ∧
    (∀ v d : Nat, 0 < v → resolveMaxCol (some v) d = v) := by
  refine ⟨fun ws cs hr => rfl, fun d => rfl, ?_⟩
  intro v d hv
  show (if v = 0 then d else v) = v
  rw [if_neg (by omega)]

theorem max_col_override_truthiness_witness :
    resolveMaxCol (some 7) 4 = 7 := by
  exact max_col_override_truthiness.2.2 7 4 (by decide)

/-- C4: every output workbook's first `header_rows` rows match the source
header cell-for-cell across the copied column extent — value plus the
copied style facets (number format, font, fill, border, alignment,
protection) and the attached comment. -/
theorem split_header_fidelity (ws : Sheet) (cs hr : Nat) (ov : Option Nat)
    (outs : List (String × Sheet))
    (hok : split_excel_to_xlsx_bytes ws cs hr ov = Except.ok outs) :
    ∀ p ∈ outs, ∀ r c : Nat, 1 ≤ r → r ≤ hr → 1 ≤ c →
      c ≤ resolveMaxCol ov ws.maxCol →
      facetsMatch (ws.cell r c) (p.2.cell r c) := by
  obtain ⟨hd, houts⟩ := split_ok_inv ws cs hr ov outs hok
  subst houts
  intro p hp r c h1 h2 h3 h4
  rw [splitParts_eq] at hp
  rcases List.mem_map.mp hp with ⟨i, hi, rfl⟩
  show facetsMatch (ws.cell r c)
    ((buildPart ws (resolveMaxCol ov ws.maxCol) hr (i * cs)
      (min ((i + 1) * cs) (ws.maxRow - hr))).cell r c)
  rw [buildPart_cell_header ws (resolveMaxCol ov ws.maxCol) hr (i * cs)
    (min ((i + 1) * cs) (ws.maxRow - hr)) r c h1 h2 h3 h4]
  exact copy_cell_facets (ws.cell r c) emptyCell

theorem split_header_fidelity_witness :
    facetsMatch (demoSheet.cell 1 1)
      ((buildPart demoSheet (resolveMaxCol none demoSheet.maxCol) 2 (0 * 999)
        (min ((0 + 1) * 999) (demoSheet.maxRow - 2))).cell 1 1) := by
  have hmem : (partName 0 (ceilDiv (demoSheet.maxRow - 2) 999),
      buildPart demoSheet (resolveMaxCol none demoSheet.maxCol) 2 (0 * 999)
        (min ((0 + 1) * 999) (demoSheet.maxRow - 2))) ∈
      splitParts demoSheet 999 2 none := by
    rw [splitParts_eq]
    exact List.mem_map.mpr ⟨0, List.mem_range.mpr (by decide), rfl⟩
  exact split_header_fidelity demoSheet 999 2 none
    (splitParts demoSheet 999 2 none)
    (split_eq_ok demoSheet 999 2 none (by decide)) _ hmem 1 1
    (by decide) (by decide) (by decide) (by decide)

/-- C9: every output part receives the source sheet's complete sheet-level
layout — all merged ranges and all row-dimension entries keyed by their
original source row numbers (also those beyond the part's last populated
row), plus column dimensions, freeze panes, sheet format/properties, page
setup/margins and print options. -/
theorem split_layout_copied (ws : Sheet) (cs hr : Nat) (ov : Option Nat)
    (outs : List (String × Sheet))
    (hok : split_excel_to_xlsx_bytes ws cs hr ov = Except.ok outs) :
    ∀ p ∈ outs,
      p.2.rowDims = ws.rowDims ∧ p.2.merged = ws.merged ∧
      p.2.colDims = ws.colDims ∧ p.2.freezePanes = ws.freezePanes ∧
      p.2.sheetFormat = ws.sheetFormat ∧
      p.2.sheetProperties = ws.sheetProperties ∧
      p.2.pageSetup = ws.pageSetup ∧ p.2.pageMargins = ws.pageMargins ∧
      p.2.printOptions = ws.printOptions ∧
      (∀ e ∈ ws.rowDims, e ∈ p.2.rowDims) ∧
      (∀ m ∈ ws.merged, m ∈ p.2.merged) := by
  obtain ⟨hd, houts⟩ := split_ok_inv ws cs hr ov outs hok
  subst houts
  intro p hp
  rw [splitParts_eq] at hp
  rcases List.mem_map.mp hp with ⟨i, hi, rfl⟩
  have hl := buildPart_layoutData ws (resolveMaxCol ov ws.maxCol) hr (i * cs)
    (min ((i + 1) * cs) (ws.maxRow - hr))
  simp only [Sheet.layoutData, Prod.mk.injEq] at hl
  obtain ⟨h1, h2, h3, h4, h5, h6, h7, h8, h9⟩ := hl
  refine ⟨h8, h9, h7, h1, h2, h3, h4, h5, h6, ?_, ?_⟩
  · intro e he
    show e ∈ (buildPart ws (resolveMaxCol ov ws.maxCol) hr (i * cs)
      (min ((i + 1) * cs) (ws.maxRow - hr))).rowDims
    rw [h8]
    exact he
  · intro m hm
    show m ∈ (buildPart ws (resolveMaxCol ov ws.maxCol) hr (i * cs)
      (min ((i + 1) * cs) (ws.maxRow - hr))).merged
    rw [h9]
    exact hm

theorem split_layout_copied_witness :
    (buildPart layoutDemo (resolveMaxCol none layoutDemo.maxCol) 2 (0 * 999)
        (min ((0 + 1) * 999) (layoutDemo.maxRow - 2))).rowDims =
      layoutDemo.rowDims ∧
    (buildPart layoutDemo (resolveMaxCol none layoutDemo.maxCol) 2 (0 * 999)
        (min ((0 + 1) * 999) (layoutDemo.maxRow - 2))).merged =
      layoutDemo.merged := by
  have hmem : (partName 0 (ceilDiv (layoutDemo.maxRow - 2) 999),
      buildPart layoutDemo (resolveMaxCol none layoutDemo.maxCol) 2 (0 * 999)
        (min ((0 + 1) * 999) (layoutDemo.maxRow - 2))) ∈
      splitParts layoutDemo 999 2 none := by
    rw [splitParts_eq]
    exact List.mem_map.mpr ⟨0, List.mem_range.mpr (by decide), rfl⟩
  have h := split_layout_copied layoutDemo 999 2 none
    (splitParts layoutDemo 999 2 none)
    (split_eq_ok layoutDemo 999 2 none (by decide)) _ hmem
  exact ⟨h.1, h.2.1⟩

/-- C8: `split_excel_to_xlsx_bytes` is deterministic — two runs on the same
worksheet with the same configuration return the same result, hence equally
many identically named parts with identical cell values everywhere. -/
theorem split_deterministic (ws : Sheet) (cs hr : Nat) (ov : Option Nat)
    (r1 r2 : Except String (List (String × Sheet)))
    (h1 : split_excel_to_xlsx_bytes ws cs hr ov = r1)
    (h2 : split_excel_to_xlsx_bytes ws cs hr ov = r2) :
    r1 = r2 ∧
    (∀ outs1 outs2, r1 = Except.ok outs1 → r2 = Except.ok outs2 →
      outs1.map Prod.fst = outs2.map Prod.fst ∧
      outs1.length = outs2.length ∧
      (∀ i r c, ∀ g1 : i < outs1.length, ∀ g2 : i < outs2.length,
        ((outs1.get ⟨i, g1⟩).2.cell r c).value =
          ((outs2.get ⟨i, g2⟩).2.cell r c).value)) := by
  have hr12 : r1 = r2 := h1.symm.trans h2
  subst hr12
  refine ⟨rfl, ?_⟩
  intro outs1 outs2 ho1 ho2
  rw [ho1] at ho2
  obtain rfl : outs1 = outs2 := Except.ok.inj ho2
  exact ⟨rfl, rfl, fun i r c g1 g2 => rfl⟩

theorem split_deterministic_witness :
    split_excel_to_xlsx_bytes demoSheet 999 2 none =
      split_excel_to_xlsx_bytes demoSheet 999 2 none := by
  exact (split_deterministic demoSheet 999 2 none _ _ rfl rfl).1

/-- C6: a successful split with `parts` parts yields, through `make_zip`,
an archive with exactly `parts` entries in part order, entry `i` (0-based)
named `part_<i+1>_of_<parts>.xlsx` and deflate-compressed; and `make_zip`
stores every given (name, payload) pair under its given name with deflate
compression, in order. -/
theorem split_archive_naming (ws : Sheet) (cs hr : Nat) (ov : Option Nat)
    (outs : List (String × Sheet)) (hcs : 0 < cs)
    (hok : split_excel_to_xlsx_bytes ws cs hr ov = Except.ok outs) :
    (make_zip outs).length = ceilDiv (ws.maxRow - hr) cs ∧
    (∀ i, ∀ hi : i < (make_zip outs).length,
      ((make_zip outs).get ⟨i, hi⟩).name =
        partName i (ceilDiv (ws.maxRow - hr) cs) ∧
      ((make_zip outs).get ⟨i, hi⟩).compression = Compression.deflated) ∧
    (∀ (α : Type) (files : List (String × α)),
      (make_zip files).map (fun e => (e.name, e.data)) = files ∧
      ∀ e ∈ make_zip files, e.compression = Compression.deflated) := by
  obtain ⟨hd, houts⟩ := split_ok_inv ws cs hr ov outs hok
  subst houts
  refine ⟨?_, ?_, ?_⟩
  · unfold make_zip
    rw [List.length_map, splitParts_length]
    simp only [Nat.zero_max]
  · intro i hi
    have hif : i < (splitParts ws cs hr ov).length := by
      unfold make_zip at hi
      rw [List.length_map] at hi
      exact hi
    rw [make_zip_get (splitParts ws cs hr ov) i hi hif, splitParts_get]
    constructor
    · show partName i (ceilDiv (max 0 (ws.maxRow - hr)) cs) = _
      rw [Nat.zero_max]
    · rfl
  · intro α files
    constructor
    · unfold make_zip
      rw [List.map_map]
      have hid : ∀ l : List (String × α), l.map (fun f => ((f.1 : String), f.2)) = l := by
        intro l
        induction l with
        | nil => rfl
        | cons a t ih => rw [List.map_cons, ih]
      exact hid files
    · intro e he
      unfold make_zip at he
      rcases List.mem_map.mp he with ⟨f, hf, rfl⟩
      rfl

theorem split_archive_naming_witness :
    ((make_zip (splitParts demoSheet 999 2 none)).get
      ⟨0, by unfold make_zip; rw [List.length_map, splitParts_length]; decide⟩).name =
      "part_1_of_3.xlsx" := by
  have h := (split_archive_naming demoSheet 999 2 none
    (splitParts demoSheet 999 2 none) (by decide)
    (split_eq_ok demoSheet 999 2 none (by decide))).2.1 0
    (by unfold make_zip; rw [List.length_map, splitParts_length]; decide)
  rw [h.1]
  decide

/-- C3: concatenating, in part order, the data rows of all output sheets
reproduces the source data region cell-for-cell up to the copied column
extent; inside each output the part's data rows sit immediately after the
header rows, renumbered from `header_rows + 1`. -/
theorem split_round_trip (ws : Sheet) (cs hr : Nat) (ov : Option Nat)
    (outs : List (String × Sheet)) (hcs : 0 < cs)
    (hok : split_excel_to_xlsx_bytes ws cs hr ov = Except.ok outs) :
    ((outs.zip (partRanges (ws.maxRow - hr) cs)).map
        (fun x => rowsVals x.1.2 (hr + 1) (x.2.2 - x.2.1)
          (resolveMaxCol ov ws.maxCol))).flatten =
      rowsVals ws (hr + 1) (ws.maxRow - hr) (resolveMaxCol ov ws.maxCol) ∧
    (∀ i t c, ∀ hi : i < outs.length, t < partLen (ws.maxRow - hr) cs i →
      1 ≤ c → c ≤ resolveMaxCol ov ws.maxCol →
      ((outs.get ⟨i, hi⟩).2.cell (hr + 1 + t) c).value =
        (ws.cell (hr + 1 + (i * cs + t)) c).value) := by
  obtain ⟨hd, houts⟩ := split_ok_inv ws cs hr ov outs hok
  subst houts
  constructor
  · rw [splitParts_eq]
    unfold partRanges
    rw [List.zip_map', List.map_map]
    have hmaps : (List.range (ceilDiv (ws.maxRow - hr) cs)).map
        ((fun x => rowsVals x.1.2 (hr + 1) (x.2.2 - x.2.1)
            (resolveMaxCol ov ws.maxCol)) ∘
          (fun i => ((partName i (ceilDiv (ws.maxRow - hr) cs),
              buildPart ws (resolveMaxCol ov ws.maxCol) hr (i * cs)
                (min ((i + 1) * cs) (ws.maxRow - hr))),
            (i * cs, min ((i + 1) * cs) (ws.maxRow - hr))))) =
        (List.range (ceilDiv (ws.maxRow - hr) cs)).map
          (fun i => (List.range (partLen (ws.maxRow - hr) cs i)).map
            (fun t => rowVals ws (hr + 1 + (i * cs + t))
              (resolveMaxCol ov ws.maxCol))) := by
      apply List.map_congr_left
      intro i hi
      show rowsVals (buildPart ws (resolveMaxCol ov ws.maxCol) hr (i * cs)
          (min ((i + 1) * cs) (ws.maxRow - hr))) (hr + 1)
          (min ((i + 1) * cs) (ws.maxRow - hr) - i * cs)
          (resolveMaxCol ov ws.maxCol) = _
      rw [rowsVals_buildPart]
      rfl
    rw [hmaps]
    exact join_chunks
      (fun j => rowVals ws (hr + 1 + j) (resolveMaxCol ov ws.maxCol))
      (ws.maxRow - hr) cs hcs
  · intro i t c hi ht h1c h2c
    rw [splitParts_get ws cs hr ov i hi]
    show ((buildPart ws (resolveMaxCol ov ws.maxCol) hr (i * cs)
      (min ((i + 1) * cs) (max 0 (ws.maxRow - hr)))).cell (hr + 1 + t) c).value = _
    rw [Nat.zero_max]
    rw [buildPart_cell_data ws (resolveMaxCol ov ws.maxCol) hr (i * cs)
      (min ((i + 1) * cs) (ws.maxRow - hr)) (hr + 1 + t) c (by omega)
      (by unfold partLen at ht; omega) h1c h2c]
    rw [(copy_cell_facets (ws.cell (hr + 1 + t + i * cs) c) emptyCell).1]
    rw [show hr + 1 + t + i * cs = hr + 1 + (i * cs + t) from by omega]

theorem split_round_trip_witness :
    (((splitParts demoSheet 999 2 none).get
        ⟨2, by rw [splitParts_length]; decide⟩).2.cell (2 + 1 + 0) 1).value =
      (demoSheet.cell (2 + 1 + (2 * 999 + 0)) 1).value := by
  exact (split_round_trip demoSheet 999 2 none
    (splitParts demoSheet 999 2 none) (by decide)
    (split_eq_ok demoSheet 999 2 none (by decide))).2 2 0 1
    (by rw [splitParts_length]; decide) (by decide) (by decide) (by decide)

/-- C7: for a source sheet with 2 header rows and 2500 data rows and
`chunk_size = 999`, the split succeeds with exactly 3 parts of data-row
lengths 999, 999 and 502, named `part_1_of_3.xlsx`, `part_2_of_3.xlsx`
and `part_3_of_3.xlsx`, and each output sheet has `header_rows +
part_length` total rows (1001, 1001 and 504). -/
theorem split_concrete_2500_999 :
    (splitParts demoSheet 999 2 none).length = 3 ∧
    split_excel_to_xlsx_bytes demoSheet 999 2 none =
      Except.ok (splitParts demoSheet 999 2 none) ∧
    (splitParts demoSheet 999 2 none).map Prod.fst =
      ["part_1_of_3.xlsx", "part_2_of_3.xlsx", "part_3_of_3.xlsx"] ∧
    (partRanges 2500 999).map (fun p => p.2 - p.1) = [999, 999, 502] ∧
    (splitParts demoSheet 999 2 none).map (fun p => p.2.maxRow) =
      [1001, 1001, 504] := by
  refine ⟨?_, split_eq_ok demoSheet 999 2 none (by decide), by decide, by decide, ?_⟩
  · rw [splitParts_length]
    decide
  · rw [splitParts_eq]
    rw [show List.range (ceilDiv (demoSheet.maxRow - 2) 999) = [0, 1, 2] from by decide]
    simp only [List.map_cons, List.map_nil]
    rw [buildPart_maxRow demoSheet (resolveMaxCol none demoSheet.maxCol) 2 (0 * 999)
        (min ((0 + 1) * 999) (demoSheet.maxRow - 2)) (by decide) (by decide),
      buildPart_maxRow demoSheet (resolveMaxCol none demoSheet.maxCol) 2 (1 * 999)
        (min ((1 + 1) * 999) (demoSheet.maxRow - 2)) (by decide) (by decide),
      buildPart_maxRow demoSheet (resolveMaxCol none demoSheet.maxCol) 2 (2 * 999)
        (min ((2 + 1) * 999) (demoSheet.maxRow - 2)) (by decide) (by decide)]
    decide

end Slicer
